import Mathlib

/-!
Shallow embedding of `src/main.rs` (dot-network-bevyengine).

Real-valued `f32` quantities are modelled by `ℚ` wherever the source only
adds, subtracts, multiplies, divides and compares, so that every state
transition is computable and decidable; the one genuinely irrational
operation, `f32::sqrt` inside `distance_between_points`, is modelled by
`Real.sqrt` over `ℝ`.  The `u32` counter `number_of_dots` is modelled by `ℕ`
(Rust traps on `u32` overflow in debug builds, so wrap-around is not defined
behaviour of the program).  Bevy collaborator primitives (cursor position,
viewport-to-world resolution, the RNG, key state, the frame timer) are
explicit parameters.
-/

/-- Default value `CONNECT_FORCE: f32 = 300.` from the source. -/
def CONNECT_FORCE : ℚ := 300

/-- Default value `SPEED: f32 = 1.` from the source. -/
def SPEED : ℚ := 1

/-- Default value `DOT_SIZE: f32 = 6.` from the source. -/
def DOT_SIZE : ℚ := 6

/-- Default value `MIN_VEL: f32 = -600.` from the source. -/
def MIN_VEL : ℚ := -600

/-- Default value `MAX_VEL: f32 = 600.` from the source. -/
def MAX_VEL : ℚ := 600

/-- `DRAG_SPAWN_INTERVAL: u64 = 70` (milliseconds) from the source. -/
def DRAG_SPAWN_INTERVAL : ℚ := 70

/-- The resource `SimuConf` of the source: mutable simulation parameters plus
the live particle count (`number_of_dots : u32` modelled by `ℕ`). -/
structure SimuConf where
  dot_size : ℚ
  speed : ℚ
  connect_force : ℚ
  min_vel : ℚ
  max_vel : ℚ
  freeze_dots : Bool
  number_of_dots : ℕ
deriving DecidableEq

/-- The initial `SimuConf` inserted by `main` via `insert_resource`. -/
def simuConfInit : SimuConf :=
  { dot_size := DOT_SIZE
    speed := SPEED
    min_vel := MIN_VEL
    max_vel := MAX_VEL
    connect_force := CONNECT_FORCE
    freeze_dots := false
    number_of_dots := 0 }

/-- A live particle: the `Transform` translation (x, y) of a `Dot` entity
together with its `Velocity` component. -/
structure Dot where
  pos : ℚ × ℚ
  vel : ℚ × ℚ
deriving DecidableEq

/-- `fn distance_between_points(p1: Vec2, p2: Vec2) -> f32`:
`((p2.x - p1.x).powi(2) + (p2.y - p1.y).powi(2)).sqrt()`. -/
noncomputable def distance_between_points (p1 p2 : ℚ × ℚ) : ℝ :=
  Real.sqrt (((p2.1 : ℝ) - (p1.1 : ℝ)) ^ 2 + ((p2.2 : ℝ) - (p1.2 : ℝ)) ^ 2)

/-- `fn map(value, from_low, from_high, to_low, to_high) -> f32`:
`to_low + (to_high - to_low) * ((value - from_low) / (from_high - from_low))`. -/
noncomputable def map (value from_low from_high to_low to_high : ℝ) : ℝ :=
  to_low + (to_high - to_low) * ((value - from_low) / (from_high - from_low))

/-- The unordered combinations produced by `query.iter_combinations()`: for a
registry listed in order, every pair of an element with a strictly later
element, each exactly once. -/
def pairsOf {α : Type} : List α → List (α × α)
  | [] => []
  | x :: xs => (xs.map fun y => (x, y)) ++ pairsOf xs

/-- A line-draw request issued through `gizmos.line_2d`: the two endpoints and
the alpha channel of the color `Color::rgba(0.93, 0.51, 0.93, alpha)` (the
hue is fixed; only alpha varies). -/
structure Line where
  p1 : ℚ × ℚ
  p2 : ℚ × ℚ
  alpha : ℝ

/-- `fn connect_dot`: for every unordered pair of dots, compute the distance;
if it is below `connect_force`, emit a line with
`alpha = map(dist, 0., connect_force, 1., 0.)`. -/
noncomputable def connect_dot (dots : List (ℚ × ℚ)) (connect_force : ℚ) : List Line :=
  (pairsOf dots).filterMap fun pq =>
    let dist := distance_between_points pq.1 pq.2
    if dist < (connect_force : ℝ) then
      some { p1 := pq.1, p2 := pq.2, alpha := map dist 0 (connect_force : ℝ) 1 0 }
    else
      none

/-- The index pairs (i, j) with i < j < n, in the order `iter_combinations`
visits a registry of length n; mirrors the recursion of `pairsOf`. -/
def idxUpairs : ℕ → List (ℕ × ℕ)
  | 0 => []
  | n + 1 =>
    ((List.range n).map fun j => (0, j + 1)) ++
      (idxUpairs n).map fun ij => (ij.1 + 1, ij.2 + 1)

/-- `fn clear_dots`: despawn every `Dot` entity and set `number_of_dots = 0`;
no other `SimuConf` field is touched. -/
def clear_dots (conf : SimuConf) (dots : List Dot) : SimuConf × List Dot :=
  ({ conf with number_of_dots := 0 }, ([] : List Dot))

/-- The collaborator inputs consumed by one `spawn_dots_on_cursor` run:
`windows.single().cursor_position()` (absent when the cursor is outside the
window), the camera's `viewport_to_world_2d` resolution (which may fail), and
the two uniform draws the RNG answers `gen_range` with, each normalised to
[0, 1). -/
structure SpawnEnv where
  cursor_position : Option (ℚ × ℚ)
  viewport_to_world : ℚ × ℚ → Option (ℚ × ℚ)
  u1 : ℚ
  u2 : ℚ

/-- Modelled from the spec: `rand`'s `rng.gen_range(lo..hi)` is not part of
this repository; per the spec it draws uniformly from the half-open interval
[lo, hi), here realised by the inverse-CDF of the uniform draw `u ∈ [0, 1)`. -/
def gen_range (lo hi u : ℚ) : ℚ := lo + u * (hi - lo)

/-- `fn spawn_dots_on_cursor`: if the cursor position is unavailable, return
silently; if window-to-world resolution fails, return silently; otherwise
spawn one dot at the resolved position with velocity components
`gen_range(min_vel..max_vel)` and increment `number_of_dots`. -/
def spawn_dots_on_cursor (env : SpawnEnv) (conf : SimuConf) (dots : List Dot) :
    SimuConf × List Dot :=
  match env.cursor_position with
  | none => (conf, dots)
  | some cursor_position =>
    match env.viewport_to_world cursor_position with
    | none => (conf, dots)
    | some cursor_pos =>
      let r_x := gen_range conf.min_vel conf.max_vel env.u1
      let r_y := gen_range conf.min_vel conf.max_vel env.u2
      ({ conf with number_of_dots := conf.number_of_dots + 1 },
        dots ++ [{ pos := cursor_pos, vel := (r_x, r_y) }])

/-- `fn apply_dot_velocity`: early-return when `freeze_dots`; otherwise each
dot's translation gains `velocity * speed * delta_seconds` on both axes. -/
def apply_dot_velocity (conf : SimuConf) (dt : ℚ) (dots : List Dot) : List Dot :=
  if conf.freeze_dots then
    dots
  else
    dots.map fun d =>
      { d with
          pos := (d.pos.1 + d.vel.1 * conf.speed * dt,
                  d.pos.2 + d.vel.2 * conf.speed * dt) }

/-- The per-dot body of `fn apply_dot_collision` with `ratio = 2.`: on each
axis in turn, if the position reaches `+extent/2` negate that velocity
component and clamp the position there, else if it reaches `-extent/2` do the
same at the negative edge, else leave the axis alone. -/
def collideDot (width height : ℚ) (d : Dot) : Dot :=
  let d1 :=
    if d.pos.1 ≥ width / 2 then
      { d with pos := (width / 2, d.pos.2), vel := (-d.vel.1, d.vel.2) }
    else if d.pos.1 ≤ -width / 2 then
      { d with pos := (-width / 2, d.pos.2), vel := (-d.vel.1, d.vel.2) }
    else d
  if d1.pos.2 ≥ height / 2 then
    { d1 with pos := (d1.pos.1, height / 2), vel := (d1.vel.1, -d1.vel.2) }
  else if d1.pos.2 ≤ -height / 2 then
    { d1 with pos := (d1.pos.1, -height / 2), vel := (d1.vel.1, -d1.vel.2) }
  else d1

/-- `fn apply_dot_collision`: the per-dot reflection applied to every dot,
with `width`/`height` read from the window resolution. -/
def apply_dot_collision (width height : ℚ) (dots : List Dot) : List Dot :=
  dots.map (collideDot width height)

/-- The `KeyCode`s the program reads. -/
inductive KeyCode where
  | KeyI | KeyK | KeyU | KeyJ | KeyR | KeyP | Escape | Space
deriving DecidableEq

/-- `Res<ButtonInput<KeyCode>>`: the currently-held set and the just-pressed
edge set, as answered by bevy's input collaborator this frame. -/
structure ButtonInput where
  pressed : KeyCode → Bool
  just_pressed : KeyCode → Bool

/-- `fn handle_keyboard_input`: seven independent `if`s, in source order
(I, K, U, J, R, P, Escape); returns the updated `SimuConf` and whether an
`AppExit` event was sent. -/
def handle_keyboard_input (input : ButtonInput) (conf : SimuConf) : SimuConf × Bool :=
  let c1 := if input.pressed .KeyI then
      { conf with connect_force := conf.connect_force + 2 } else conf
  let c2 := if input.pressed .KeyK then
      { c1 with connect_force := c1.connect_force - 2 } else c1
  let c3 := if input.pressed .KeyU then
      { c2 with speed := c2.speed + 0.04 } else c2
  let c4 := if input.pressed .KeyJ then
      { c3 with speed := c3.speed - 0.04 } else c3
  let c5 := if input.just_pressed .KeyR then
      { c4 with speed := c4.speed * (-1) } else c4
  let c6 := if input.just_pressed .KeyP then
      { c5 with freeze_dots := !c5.freeze_dots } else c5
  (c6, input.pressed .Escape)

/-- `fn update_info_text`: the `format!` call
`"Dot (Click/Space): {} | Connect Force (I/K) : {} | Speed (U/J): {}"`
applied to `number_of_dots`, `connect_force`, `speed`.  The `u32` count is
rendered in decimal exactly as Rust's `Display` does; the two `f32` fields
are taken as the strings the external `Display` collaborator renders them
to. -/
def update_info_text (number_of_dots : ℕ) (connect_force speed : String) : String :=
  "Dot (Click/Space): " ++ toString number_of_dots ++
    " | Connect Force (I/K) : " ++ connect_force ++
    " | Speed (U/J): " ++ speed

/-- The status-line template as the spec's words give it (no space before the
colon after "(I/K)"), for comparison with `update_info_text`. -/
def spec_info_text (number_of_dots : ℕ) (connect_force speed : String) : String :=
  "Dot (Click/Space): " ++ toString number_of_dots ++
    " | Connect Force (I/K): " ++ connect_force ++
    " | Speed (U/J): " ++ speed

/-- One rendered frame as the spawn gate sees it: the elapsed time since the
previous frame in milliseconds and whether `MouseButton::Left` is held. -/
structure Frame where
  dt : ℚ
  pressed : Bool
deriving DecidableEq

/-- Modelled from the spec: the run condition
`on_timer(Duration::from_millis(DRAG_SPAWN_INTERVAL))` is bevy library code,
not part of this repository; per the spec it is an accumulated-elapsed-time
counter compared against the fixed 70 ms interval and reset on trigger.  One
frame: accumulate `dt`; if the accumulator reaches the interval the timer
fires and resets, and the system runs (a spawn happens) exactly when the
timer fired and the left button is held. -/
def gateStep (acc : ℚ) (f : Frame) : ℚ × Bool :=
  let acc1 := acc + f.dt
  if DRAG_SPAWN_INTERVAL ≤ acc1 then (0, f.pressed) else (acc1, false)

/-- Run the spawn gate over a frame trace from accumulator state `acc`,
returning the per-frame spawn flags. -/
def runGate (acc : ℚ) : List Frame → List Bool
  | [] => []
  | f :: fs => (gateStep acc f).2 :: runGate (gateStep acc f).1 fs

/-- Total elapsed time of a frame trace, in milliseconds. -/
def dtSum (fs : List Frame) : ℚ := (fs.map Frame.dt).sum

/-- One per-frame mutating operation of the update schedule.  `connect_dot`
and `update_info_text` only read state and so are absent. -/
inductive Op where
  | spawnOp (env : SpawnEnv)
  | clearOp
  | velocityOp (dt : ℚ)
  | collisionOp (width height : ℚ)
  | keyboardOp (input : ButtonInput)

/-- Apply one operation to the simulation state (`SimuConf` resource plus
the registry of live `Dot` entities). -/
def stepOp (s : SimuConf × List Dot) : Op → SimuConf × List Dot
  | .spawnOp env => spawn_dots_on_cursor env s.1 s.2
  | .clearOp => clear_dots s.1 s.2
  | .velocityOp dt => (s.1, apply_dot_velocity s.1 dt s.2)
  | .collisionOp width height => (s.1, apply_dot_collision width height s.2)
  | .keyboardOp input => ((handle_keyboard_input input s.1).1, s.2)

/-- The state at startup: the inserted `SimuConf` and no dots. -/
def initState : SimuConf × List Dot := (simuConfInit, [])

/-- A spawn environment in which the cursor is outside the window. -/
def envOutside : SpawnEnv :=
  { cursor_position := none, viewport_to_world := fun p => some p, u1 := 0, u2 := 0 }

/-- A spawn environment in which the cursor is available but window-to-world
resolution fails. -/
def envNoWorld : SpawnEnv :=
  { cursor_position := some (3, 4), viewport_to_world := fun _ => none, u1 := 0, u2 := 0 }

/-- A spawn environment in which resolution succeeds at the cursor position
itself, with given uniform draws. -/
def envHit (p : ℚ × ℚ) (u1 u2 : ℚ) : SpawnEnv :=
  { cursor_position := some p, viewport_to_world := fun q => some q, u1 := u1, u2 := u2 }

/-- A key state in which only K is held. -/
def onlyK : ButtonInput :=
  { pressed := fun k => match k with | .KeyK => true | _ => false
    just_pressed := fun _ => false }

/-- A key state in which only J is held. -/
def onlyJ : ButtonInput :=
  { pressed := fun k => match k with | .KeyJ => true | _ => false
    just_pressed := fun _ => false }

/-! ## Helper lemmas -/

/-- Membership in the half-open interval sampled by `gen_range`. -/
theorem gen_range_mem (lo hi u : ℚ) (hlt : lo < hi) (h0 : 0 ≤ u) (h1 : u < 1) :
    lo ≤ gen_range lo hi u ∧ gen_range lo hi u < hi := by
  unfold gen_range
  constructor
  · nlinarith
  · nlinarith

/-! ## Claim theorems -/

/-- C2: one `apply_dot_collision` pass acts on each axis independently: a
position component at or beyond `+extent/2` is clamped to exactly `+extent/2`
with that velocity component negated; else at or beyond `-extent/2` it is
clamped to `-extent/2` with the velocity component negated; otherwise the
axis is untouched; and the whole pass is this per-dot rule mapped over the
registry.  In particular a dot at `x = 800/2 + 1` with `vx = 5` ends at
`x = 400` with `vx = -5`. -/
theorem apply_dot_collision_spec (width height : ℚ) (d : Dot) :
    ((collideDot width height d).pos.1, (collideDot width height d).vel.1) =
      (if width / 2 ≤ d.pos.1 then (width / 2, -d.vel.1)
       else if d.pos.1 ≤ -width / 2 then (-width / 2, -d.vel.1)
       else (d.pos.1, d.vel.1)) ∧
    ((collideDot width height d).pos.2, (collideDot width height d).vel.2) =
      (if height / 2 ≤ d.pos.2 then (height / 2, -d.vel.2)
       else if d.pos.2 ≤ -height / 2 then (-height / 2, -d.vel.2)
       else (d.pos.2, d.vel.2)) ∧
    (∀ dots : List Dot,
      apply_dot_collision width height dots = dots.map (collideDot width height)) ∧
    collideDot 800 600 { pos := (401, 5), vel := (5, 7) } =
      { pos := (400, 5), vel := (-5, 7) } := by
  obtain ⟨⟨x, y⟩, vx, vy⟩ := d
  refine ⟨?_, ?_, fun dots => rfl, by norm_num [collideDot]⟩ <;>
    (by_cases h1 : x ≥ width / 2 <;> by_cases h2 : x ≤ -width / 2 <;>
     by_cases h3 : y ≥ height / 2 <;> by_cases h4 : y ≤ -height / 2 <;>
     simp [collideDot, h1, h2, h3, h4])

/-- C3 counterexample: at count 0, connect force rendered "300" and speed
rendered "1", the string the code produces differs from the spec's template
(the code writes a space before the colon after "(I/K)"). -/
theorem update_info_text_ne_spec :
    update_info_text 0 "300" "1" ≠ spec_info_text 0 "300" "1" := by
  decide

/-- C3 (amended): the status string equals exactly
`"Dot (Click/Space): {count} | Connect Force (I/K) : {connect_distance} | Speed (U/J): {speed_multiplier}"`
(with a space before the colon after "(I/K)"), and for no substituted values
does it coincide with the spec's space-free template. -/
theorem update_info_text_format (n : ℕ) (cf sp : String) :
    update_info_text n cf sp =
      "Dot (Click/Space): " ++ toString n ++ " | Connect Force (I/K) : " ++ cf ++
        " | Speed (U/J): " ++ sp ∧
    update_info_text n cf sp ≠ spec_info_text n cf sp := by
  refine ⟨rfl, fun h => ?_⟩
  have hlen := congrArg String.length h
  have l1 : ("Dot (Click/Space): " : String).length = 19 := by decide
  have l2 : (" | Connect Force (I/K) : " : String).length = 25 := by decide
  have l3 : (" | Connect Force (I/K): " : String).length = 24 := by decide
  have l4 : (" | Speed (U/J): " : String).length = 16 := by decide
  rw [update_info_text, spec_info_text] at hlen
  simp only [String.length_append, l1, l2, l3, l4] at hlen
  omega

/-- C4: one `apply_dot_velocity` pass with non-negative frame delta: when not
frozen, each dot's position gains `velocity * speed * dt` on both axes and
its velocity is unchanged; when frozen, any number of repeated applications
is a complete no-op. -/
theorem apply_dot_velocity_spec (conf : SimuConf) (dt : ℚ) (dots : List Dot)
    (hdt : 0 ≤ dt) :
    (conf.freeze_dots = false →
      apply_dot_velocity conf dt dots =
        dots.map fun d =>
          { d with
              pos := (d.pos.1 + d.vel.1 * conf.speed * dt,
                      d.pos.2 + d.vel.2 * conf.speed * dt) }) ∧
    (conf.freeze_dots = true →
      ∀ n : ℕ, (apply_dot_velocity conf dt)^[n] dots = dots) := by
  constructor
  · intro h
    simp [apply_dot_velocity, h]
  · intro h n
    apply Function.iterate_fixed
    simp [apply_dot_velocity, h]

/-- C4 witness: a concrete unfrozen step moves `(0,0)` with velocity `(1,2)`
at `speed = 1`, `dt = 1` to `(1,2)`. -/
theorem apply_dot_velocity_spec_witness :
    apply_dot_velocity simuConfInit 1 [{ pos := (0, 0), vel := (1, 2) }] =
      [{ pos := (1, 2), vel := (1, 2) }] := by
  have h :=
    (apply_dot_velocity_spec simuConfInit 1 [{ pos := (0, 0), vel := (1, 2) }]
      (by norm_num)).1 rfl
  rw [h]
  norm_num [simuConfInit, SPEED]

/-- C8: from any prior state, one `clear_dots` application leaves the
registry empty, sets `number_of_dots` to 0, and changes nothing else in the
configuration; as a pure state-to-state function it admits no observable
intermediate (partial) state. -/
theorem clear_dots_spec (conf : SimuConf) (dots : List Dot) :
    (clear_dots conf dots).2 = [] ∧
    (clear_dots conf dots).1.number_of_dots = 0 ∧
    (clear_dots conf dots).1 = { conf with number_of_dots := 0 } :=
  ⟨rfl, rfl, rfl⟩

/-- C9: when the cursor position is unavailable, or window-to-world
resolution fails, `spawn_dots_on_cursor` returns with configuration and
registry both exactly unchanged (a silent skip, not an error). -/
theorem spawn_skip_spec (env : SpawnEnv) (conf : SimuConf) (dots : List Dot) :
    (env.cursor_position = none → spawn_dots_on_cursor env conf dots = (conf, dots)) ∧
    (∀ cp, env.cursor_position = some cp → env.viewport_to_world cp = none →
      spawn_dots_on_cursor env conf dots = (conf, dots)) := by
  constructor
  · intro h
    simp [spawn_dots_on_cursor, h]
  · intro cp h1 h2
    simp [spawn_dots_on_cursor, h1, h2]

/-- C9 witness: both skip conditions at concrete inputs. -/
theorem spawn_skip_spec_witness :
    spawn_dots_on_cursor envOutside simuConfInit [] = (simuConfInit, []) ∧
    spawn_dots_on_cursor envNoWorld simuConfInit [] = (simuConfInit, []) :=
  ⟨(spawn_skip_spec envOutside simuConfInit []).1 rfl,
   (spawn_skip_spec envNoWorld simuConfInit []).2 (3, 4) rfl rfl⟩

/-- C10: a successful spawn appends exactly one dot whose two velocity
components are the two independent `gen_range(min_vel..max_vel)` draws, and
under the precondition `min_vel < max_vel` (with the uniform draws in
[0, 1)) both components lie in the half-open interval [min_vel, max_vel). -/
theorem spawn_velocity_range (env : SpawnEnv) (conf : SimuConf) (dots : List Dot)
    (cp wp : ℚ × ℚ) (hmm : conf.min_vel < conf.max_vel)
    (hu1 : 0 ≤ env.u1) (hu1' : env.u1 < 1) (hu2 : 0 ≤ env.u2) (hu2' : env.u2 < 1)
    (hcp : env.cursor_position = some cp) (hwp : env.viewport_to_world cp = some wp) :
    ∃ d : Dot,
      (spawn_dots_on_cursor env conf dots).2 = dots ++ [d] ∧
      d.pos = wp ∧
      d.vel.1 = gen_range conf.min_vel conf.max_vel env.u1 ∧
      d.vel.2 = gen_range conf.min_vel conf.max_vel env.u2 ∧
      conf.min_vel ≤ d.vel.1 ∧ d.vel.1 < conf.max_vel ∧
      conf.min_vel ≤ d.vel.2 ∧ d.vel.2 < conf.max_vel := by
  refine ⟨{ pos := wp,
            vel := (gen_range conf.min_vel conf.max_vel env.u1,
                    gen_range conf.min_vel conf.max_vel env.u2) }, ?_, rfl, rfl, rfl,
          (gen_range_mem _ _ _ hmm hu1 hu1').1, (gen_range_mem _ _ _ hmm hu1 hu1').2,
          (gen_range_mem _ _ _ hmm hu2 hu2').1, (gen_range_mem _ _ _ hmm hu2 hu2').2⟩
  simp [spawn_dots_on_cursor, hcp, hwp]

/-- C10 witness: with the unmodified defaults the sampling interval is
[-600, 600); a concrete successful spawn with draws 1/2 and 0 appends one
dot with velocity components inside it. -/
theorem spawn_velocity_range_witness :
    ∃ d : Dot,
      (spawn_dots_on_cursor (envHit (5, 6) (1/2) 0) simuConfInit []).2 = [] ++ [d] ∧
      d.pos = (5, 6) ∧
      d.vel.1 = gen_range (-600) 600 (1/2) ∧
      d.vel.2 = gen_range (-600) 600 0 ∧
      (-600 : ℚ) ≤ d.vel.1 ∧ d.vel.1 < 600 ∧
      (-600 : ℚ) ≤ d.vel.2 ∧ d.vel.2 < 600 :=
  spawn_velocity_range (envHit (5, 6) (1/2) 0) simuConfInit [] (5, 6) (5, 6)
    (by norm_num [simuConfInit, MIN_VEL, MAX_VEL]) (by norm_num [envHit])
    (by norm_num [envHit]) (by norm_num [envHit]) (by norm_num [envHit]) rfl rfl

/-- Full characterization of one `handle_keyboard_input` pass, proved by case
analysis on the six key states. -/
theorem handle_keyboard_char (input : ButtonInput) (conf : SimuConf) :
    (handle_keyboard_input input conf).1.connect_force =
        conf.connect_force + (if input.pressed .KeyI then 2 else 0)
          - (if input.pressed .KeyK then 2 else 0) ∧
    (handle_keyboard_input input conf).1.speed =
        (conf.speed + (if input.pressed .KeyU then 0.04 else 0)
          - (if input.pressed .KeyJ then 0.04 else 0))
          * (if input.just_pressed .KeyR then -1 else 1) ∧
    (handle_keyboard_input input conf).1.freeze_dots =
        ((input.just_pressed .KeyP).xor conf.freeze_dots) ∧
    (handle_keyboard_input input conf).2 = input.pressed .Escape ∧
    (handle_keyboard_input input conf).1.dot_size = conf.dot_size ∧
    (handle_keyboard_input input conf).1.min_vel = conf.min_vel ∧
    (handle_keyboard_input input conf).1.max_vel = conf.max_vel ∧
    (handle_keyboard_input input conf).1.number_of_dots = conf.number_of_dots := by
  cases hI : input.pressed .KeyI <;> cases hK : input.pressed .KeyK <;>
    cases hU : input.pressed .KeyU <;> cases hJ : input.pressed .KeyJ <;>
    cases hR : input.just_pressed .KeyR <;> cases hP : input.just_pressed .KeyP <;>
    simp [handle_keyboard_input, hI, hK, hU, hJ, hR, hP]

/-- C6: one `handle_keyboard_input` pass performs exactly: I held adds 2 to
the connect distance, K held subtracts 2, U held adds 0.04 to the speed
multiplier, J held subtracts 0.04, an R edge multiplies the speed multiplier
by -1, a P edge toggles the freeze flag, Escape held requests exit; no
clamping is applied (the resulting values may go negative, as the concrete
negative instances show) and no other `SimuConf` field changes. -/
theorem handle_keyboard_input_spec (input : ButtonInput) (conf : SimuConf) :
    ((handle_keyboard_input input conf).1.connect_force =
        conf.connect_force + (if input.pressed .KeyI then 2 else 0)
          - (if input.pressed .KeyK then 2 else 0) ∧
      (handle_keyboard_input input conf).1.speed =
        (conf.speed + (if input.pressed .KeyU then 0.04 else 0)
          - (if input.pressed .KeyJ then 0.04 else 0))
          * (if input.just_pressed .KeyR then -1 else 1) ∧
      (handle_keyboard_input input conf).1.freeze_dots =
        ((input.just_pressed .KeyP).xor conf.freeze_dots) ∧
      (handle_keyboard_input input conf).2 = input.pressed .Escape ∧
      (handle_keyboard_input input conf).1.dot_size = conf.dot_size ∧
      (handle_keyboard_input input conf).1.min_vel = conf.min_vel ∧
      (handle_keyboard_input input conf).1.max_vel = conf.max_vel ∧
      (handle_keyboard_input input conf).1.number_of_dots = conf.number_of_dots) ∧
    (handle_keyboard_input onlyK
        { simuConfInit with connect_force := 1 }).1.connect_force = -1 ∧
    (handle_keyboard_input onlyJ
        { simuConfInit with speed := 0.03 }).1.speed = -0.01 := by
  refine ⟨handle_keyboard_char input conf, ?_, ?_⟩ <;>
    norm_num [handle_keyboard_input, onlyK, onlyJ]

/-- `apply_dot_velocity` never changes the number of dots in the registry. -/
theorem apply_dot_velocity_length (conf : SimuConf) (dt : ℚ) (dots : List Dot) :
    (apply_dot_velocity conf dt dots).length = dots.length := by
  unfold apply_dot_velocity
  split <;> simp

/-- One `stepOp` preserves the `number_of_dots = registry length` invariant. -/
theorem stepOp_invariant (s : SimuConf × List Dot) (op : Op)
    (h : s.1.number_of_dots = s.2.length) :
    (stepOp s op).1.number_of_dots = (stepOp s op).2.length := by
  cases op with
  | spawnOp env =>
    show (spawn_dots_on_cursor env s.1 s.2).1.number_of_dots =
      (spawn_dots_on_cursor env s.1 s.2).2.length
    cases hc : env.cursor_position with
    | none => simp [spawn_dots_on_cursor, hc, h]
    | some cp =>
      cases hw : env.viewport_to_world cp with
      | none => simp [spawn_dots_on_cursor, hc, hw, h]
      | some wp => simp [spawn_dots_on_cursor, hc, hw, h]
  | clearOp => rfl
  | velocityOp dt =>
    show s.1.number_of_dots = (apply_dot_velocity s.1 dt s.2).length
    rw [apply_dot_velocity_length]
    exact h
  | collisionOp width height =>
    show s.1.number_of_dots = (apply_dot_collision width height s.2).length
    simp [apply_dot_collision, h]
  | keyboardOp input =>
    show (handle_keyboard_input input s.1).1.number_of_dots = s.2.length
    rw [(handle_keyboard_char input s.1).2.2.2.2.2.2.2]
    exact h

/-- The invariant holds after any operation sequence from an invariant
state. -/
theorem foldl_stepOp_invariant (ops : List Op) (s : SimuConf × List Dot)
    (h : s.1.number_of_dots = s.2.length) :
    (ops.foldl stepOp s).1.number_of_dots = (ops.foldl stepOp s).2.length := by
  induction ops generalizing s with
  | nil => exact h
  | cons op ops ih => exact ih (stepOp s op) (stepOp_invariant s op h)

/-- C5: starting from the startup state (count 0, empty registry), every
sequence of per-frame operations preserves
`number_of_dots = number of live dots`; a successful spawn appends exactly
one dot and increments the count by exactly 1, a clear empties the registry
and zeroes the count, and the velocity, collision and keyboard operations
change neither side. -/
theorem particle_count_invariant :
    (∀ ops : List Op,
      (ops.foldl stepOp initState).1.number_of_dots =
        (ops.foldl stepOp initState).2.length) ∧
    (∀ (s : SimuConf × List Dot) (env : SpawnEnv) (cp wp : ℚ × ℚ),
      env.cursor_position = some cp → env.viewport_to_world cp = some wp →
      (stepOp s (.spawnOp env)).2.length = s.2.length + 1 ∧
      (stepOp s (.spawnOp env)).1.number_of_dots = s.1.number_of_dots + 1) ∧
    (∀ s, (stepOp s .clearOp).2 = [] ∧ (stepOp s .clearOp).1.number_of_dots = 0) ∧
    (∀ s dt, (stepOp s (.velocityOp dt)).2.length = s.2.length ∧
      (stepOp s (.velocityOp dt)).1.number_of_dots = s.1.number_of_dots) ∧
    (∀ s width height,
      (stepOp s (.collisionOp width height)).2.length = s.2.length ∧
      (stepOp s (.collisionOp width height)).1.number_of_dots = s.1.number_of_dots) ∧
    (∀ s input, (stepOp s (.keyboardOp input)).2 = s.2 ∧
      (stepOp s (.keyboardOp input)).1.number_of_dots = s.1.number_of_dots) := by
  refine ⟨fun ops => foldl_stepOp_invariant ops initState rfl, ?_, fun s => ⟨rfl, rfl⟩,
    ?_, fun s width height => ⟨by simp [stepOp, apply_dot_collision], rfl⟩, ?_⟩
  · intro s env cp wp hcp hwp
    constructor
    · show (spawn_dots_on_cursor env s.1 s.2).2.length = s.2.length + 1
      simp [spawn_dots_on_cursor, hcp, hwp]
    · show (spawn_dots_on_cursor env s.1 s.2).1.number_of_dots = s.1.number_of_dots + 1
      simp [spawn_dots_on_cursor, hcp, hwp]
  · intro s dt
    exact ⟨apply_dot_velocity_length s.1 dt s.2, rfl⟩
  · intro s input
    exact ⟨rfl, (handle_keyboard_char input s.1).2.2.2.2.2.2.2⟩

/-- C5 witness: a concrete successful spawn from the startup state adds one
dot and bumps the count by one. -/
theorem particle_count_invariant_witness :
    (stepOp initState (.spawnOp (envHit (1, 2) 0 0))).2.length =
      initState.2.length + 1 ∧
    (stepOp initState (.spawnOp (envHit (1, 2) 0 0))).1.number_of_dots =
      initState.1.number_of_dots + 1 :=
  particle_count_invariant.2.1 initState (envHit (1, 2) 0 0) (1, 2) (1, 2) rfl rfl

/-- A fire of the gate at frame k needs at least the full interval
accumulated since the start of the run. -/
theorem runGate_fire_bound (fs : List Frame) :
    ∀ (acc : ℚ) (k : ℕ), 0 ≤ acc → (∀ f ∈ fs, 0 ≤ f.dt) →
    (runGate acc fs).getD k false = true →
    DRAG_SPAWN_INTERVAL ≤ acc + dtSum (fs.take (k + 1)) := by
  induction fs with
  | nil =>
    intro acc k _ _ hk
    simp [runGate] at hk
  | cons f fs ih =>
    intro acc k hacc hdt hk
    have hf : 0 ≤ f.dt := hdt f (List.mem_cons_self f fs)
    have hdt' : ∀ g ∈ fs, 0 ≤ g.dt := fun g hg => hdt g (List.mem_cons_of_mem f hg)
    rcases k with _ | k
    · simp only [runGate, List.getD_cons_zero] at hk
      by_cases h70 : DRAG_SPAWN_INTERVAL ≤ acc + f.dt
      · simpa [dtSum] using h70
      · simp [gateStep, h70] at hk
    · simp only [runGate, List.getD_cons_succ] at hk
      have hsum : dtSum ((f :: fs).take (k + 1 + 1)) = f.dt + dtSum (fs.take (k + 1)) := by
        simp [dtSum]
      rw [hsum]
      by_cases h70 : DRAG_SPAWN_INTERVAL ≤ acc + f.dt
      · have hstep : (gateStep acc f).1 = 0 := by simp [gateStep, h70]
        rw [hstep] at hk
        have hb := ih 0 k le_rfl hdt' hk
        linarith
      · have hstep : (gateStep acc f).1 = acc + f.dt := by simp [gateStep, h70]
        rw [hstep] at hk
        have hb := ih (acc + f.dt) k (by linarith) hdt' hk
        linarith

/-- After a fire at frame i the accumulator is reset, so the rest of the run
is a fresh run of the remaining frames. -/
theorem runGate_drop (fs : List Frame) :
    ∀ (acc : ℚ) (i : ℕ), (runGate acc fs).getD i false = true →
    (runGate acc fs).drop (i + 1) = runGate 0 (fs.drop (i + 1)) := by
  induction fs with
  | nil =>
    intro acc i hi
    simp [runGate] at hi
  | cons f fs ih =>
    intro acc i hi
    rcases i with _ | i
    · simp only [runGate, List.getD_cons_zero] at hi
      have hstep : (gateStep acc f).1 = 0 := by
        by_cases h70 : DRAG_SPAWN_INTERVAL ≤ acc + f.dt
        · simp [gateStep, h70]
        · simp [gateStep, h70] at hi
      simp only [runGate, List.drop_succ_cons, List.drop_zero]
      rw [hstep]
    · simp only [runGate, List.getD_cons_succ] at hi
      simp only [runGate, List.drop_succ_cons]
      exact ih (gateStep acc f).1 i hi

/-- A spawn can only happen in a frame in which the button is held. -/
theorem runGate_pressed (fs : List Frame) :
    ∀ (acc : ℚ) (k : ℕ), (runGate acc fs).getD k false = true →
    (fs.getD k { dt := 0, pressed := false }).pressed = true := by
  induction fs with
  | nil =>
    intro acc k hk
    simp [runGate] at hk
  | cons f fs ih =>
    intro acc k hk
    rcases k with _ | k
    · simp only [runGate, List.getD_cons_zero] at hk
      simp only [List.getD_cons_zero]
      by_cases h70 : DRAG_SPAWN_INTERVAL ≤ acc + f.dt
      · simpa [gateStep, h70] using hk
      · simp [gateStep, h70] at hk
    · simp only [runGate, List.getD_cons_succ] at hk
      simp only [List.getD_cons_succ]
      exact ih (gateStep acc f).1 k hk

/-- C7: over any frame trace with non-negative deltas, two spawns at frames
i < j are separated by at least the 70 ms interval of elapsed time, no spawn
happens in a frame whose button is not held, and a button held continuously
for 210 ms at 10 ms per frame yields exactly 3 spawns. -/
theorem spawn_gate_spec (fs : List Frame) (hdt : ∀ f ∈ fs, 0 ≤ f.dt) :
    (∀ i j : ℕ, i < j →
      (runGate 0 fs).getD i false = true →
      (runGate 0 fs).getD j false = true →
      DRAG_SPAWN_INTERVAL ≤ dtSum ((fs.drop (i + 1)).take (j - i))) ∧
    (∀ k : ℕ, (runGate 0 fs).getD k false = true →
      (fs.getD k { dt := 0, pressed := false }).pressed = true) ∧
    (runGate 0 (List.replicate 21 { dt := 10, pressed := true })).count true = 3 := by
  refine ⟨?_, fun k hk => runGate_pressed fs 0 k hk, ?_⟩
  · intro i j hij hi hj
    have hdrop := runGate_drop fs 0 i hi
    have hj' : (runGate 0 (fs.drop (i + 1))).getD (j - (i + 1)) false = true := by
      rw [← hdrop, List.getD_eq_getElem?_getD, List.getElem?_drop,
        ← List.getD_eq_getElem?_getD]
      have hidx : i + 1 + (j - (i + 1)) = j := by omega
      rw [hidx]
      exact hj
    have hdt' : ∀ f ∈ fs.drop (i + 1), 0 ≤ f.dt := fun f hf =>
      hdt f (List.drop_subset (i + 1) fs hf)
    have hb := runGate_fire_bound (fs.drop (i + 1)) 0 (j - (i + 1)) le_rfl hdt' hj'
    have hidx2 : j - (i + 1) + 1 = j - i := by omega
    rw [hidx2] at hb
    linarith
  · norm_num [runGate, gateStep, dtSum, DRAG_SPAWN_INTERVAL, List.replicate]

/-- C7 witness: the 210 ms continuous-hold scenario evaluated concretely. -/
theorem spawn_gate_spec_witness :
    (runGate 0 (List.replicate 21 { dt := 10, pressed := true })).count true = 3 :=
  (spawn_gate_spec [] (by simp)).2.2

/-- Mapping a function over a list is the same as mapping over its indices
with `getD`. -/
theorem map_range_getD {α β : Type} (l : List α) (d : α) (f : α → β) :
    (List.range l.length).map (fun j => f (l.getD j d)) = l.map f := by
  induction l with
  | nil => simp
  | cons x xs ih =>
    have hcomp : ((fun j => f ((x :: xs).getD j d)) ∘ Nat.succ) =
        fun j => f (xs.getD j d) := by
      funext j
      simp [List.getD_cons_succ]
    rw [List.length_cons, List.range_succ_eq_map, List.map_cons, List.map_map, hcomp, ih]
    simp

/-- `iter_combinations` on a registry enumerates exactly the index pairs
`idxUpairs`, looked up with `getD`. -/
theorem pairsOf_eq_idxUpairs {α : Type} (l : List α) (d : α) :
    pairsOf l = (idxUpairs l.length).map fun ij => (l.getD ij.1 d, l.getD ij.2 d) := by
  induction l with
  | nil => simp [pairsOf, idxUpairs]
  | cons x xs ih =>
    show (xs.map fun y => (x, y)) ++ pairsOf xs = _
    rw [List.length_cons, idxUpairs, List.map_append, List.map_map, List.map_map]
    have h2 : ((fun ij : ℕ × ℕ => ((x :: xs).getD ij.1 d, (x :: xs).getD ij.2 d)) ∘
        fun ij : ℕ × ℕ => (ij.1 + 1, ij.2 + 1)) =
        fun ij : ℕ × ℕ => (xs.getD ij.1 d, xs.getD ij.2 d) := by
      funext ij
      simp [List.getD_cons_succ]
    rw [h2, ← ih]
    congr 1
    have h1 : ((fun ij : ℕ × ℕ => ((x :: xs).getD ij.1 d, (x :: xs).getD ij.2 d)) ∘
        fun j => (0, j + 1)) = fun j => ((fun y => (x, y)) (xs.getD j d)) := by
      funext j
      simp [List.getD_cons_zero, List.getD_cons_succ]
    rw [h1, map_range_getD]

/-- The index-pair enumeration never repeats a pair. -/
theorem idxUpairs_nodup (n : ℕ) : (idxUpairs n).Nodup := by
  induction n with
  | zero => simp [idxUpairs]
  | succ n ih =>
    rw [idxUpairs]
    refine List.Nodup.append ?_ ?_ ?_
    · refine List.Nodup.map ?_ (List.nodup_range n)
      intro a b hab
      simpa using hab
    · refine List.Nodup.map ?_ ih
      intro a b hab
      rw [Prod.mk.injEq] at hab
      obtain ⟨h1, h2⟩ := hab
      exact Prod.ext (by omega) (by omega)
    · intro p hp1 hp2
      simp only [List.mem_map, List.mem_range] at hp1 hp2
      obtain ⟨j, _, rfl⟩ := hp1
      obtain ⟨ij, _, heq⟩ := hp2
      rw [Prod.mk.injEq] at heq
      omega

/-- The index-pair enumeration holds exactly the pairs i < j < n: no
self-pair, every unordered pair once. -/
theorem mem_idxUpairs (n : ℕ) (i j : ℕ) :
    (i, j) ∈ idxUpairs n ↔ i < j ∧ j < n := by
  induction n generalizing i j with
  | zero => simp [idxUpairs]
  | succ n ih =>
    rw [idxUpairs]
    simp only [List.mem_append, List.mem_map, List.mem_range]
    constructor
    · rintro (⟨j', hj', heq⟩ | ⟨⟨a, b⟩, hab, heq⟩)
      · rw [Prod.mk.injEq] at heq
        omega
      · rw [Prod.mk.injEq] at heq
        have hih := (ih a b).1 hab
        omega
    · rintro ⟨hij, hjn⟩
      rcases Nat.eq_zero_or_pos i with hi | hi
      · left
        exact ⟨j - 1, by omega, by rw [Prod.mk.injEq]; omega⟩
      · right
        refine ⟨(i - 1, j - 1), (ih _ _).2 ⟨by omega, by omega⟩, ?_⟩
        rw [Prod.mk.injEq]
        omega

/-- The source's `map(dist, 0., connect_force, 1., 0.)` is the linear
opacity `1 - dist / connect_force`. -/
theorem map_dist_formula (d cf : ℝ) : map d 0 cf 1 0 = 1 - d / cf := by
  unfold map
  ring

/-- `connect_dot` equals the filter over the index-pair enumeration with the
linear opacity substituted in. -/
theorem connect_dot_eq (dots : List (ℚ × ℚ)) (cf : ℚ) :
    connect_dot dots cf =
      (idxUpairs dots.length).filterMap fun ij =>
        if distance_between_points (dots.getD ij.1 (0, 0)) (dots.getD ij.2 (0, 0)) <
            (cf : ℝ) then
          some { p1 := dots.getD ij.1 (0, 0), p2 := dots.getD ij.2 (0, 0),
                 alpha := 1 -
                   distance_between_points (dots.getD ij.1 (0, 0))
                     (dots.getD ij.2 (0, 0)) / (cf : ℝ) }
        else none := by
  unfold connect_dot
  rw [pairsOf_eq_idxUpairs dots (0, 0), List.filterMap_map]
  congr 1
  funext ij
  simp only [Function.comp_apply, map_dist_formula]

/-- With a non-positive connect force nothing is ever drawn, because
distances are non-negative. -/
theorem connect_dot_nonpos (dots : List (ℚ × ℚ)) (cf : ℚ) (hcf : cf ≤ 0) :
    connect_dot dots cf = [] := by
  unfold connect_dot
  rw [List.filterMap_eq_nil]
  intro pq _
  have hd : (0 : ℝ) ≤ distance_between_points pq.1 pq.2 := Real.sqrt_nonneg _
  have hcf' : ((cf : ℝ)) ≤ 0 := by exact_mod_cast hcf
  rw [if_neg (not_lt.2 (le_trans hcf' hd))]

/-- Distance between coincident points is 0. -/
theorem dist_00 : distance_between_points ((0 : ℚ), (0 : ℚ)) (0, 0) = 0 := by
  simp [distance_between_points]

/-- Distance between (0,0) and (50,0) is 50. -/
theorem dist_50 : distance_between_points ((0 : ℚ), (0 : ℚ)) (50, 0) = 50 := by
  unfold distance_between_points
  push_cast
  rw [show ((50 : ℝ) - 0) ^ 2 + ((0 : ℝ) - 0) ^ 2 = 50 ^ 2 by ring]
  exact Real.sqrt_sq (by norm_num)

/-- Distance between (0,0) and (100,0) is 100. -/
theorem dist_100 : distance_between_points ((0 : ℚ), (0 : ℚ)) (100, 0) = 100 := by
  unfold distance_between_points
  push_cast
  rw [show ((100 : ℝ) - 0) ^ 2 + ((0 : ℝ) - 0) ^ 2 = 100 ^ 2 by ring]
  exact Real.sqrt_sq (by norm_num)

/-- Two coincident dots at connect force 100 yield one line of opacity 1. -/
theorem connect_ex1 :
    connect_dot [((0 : ℚ), (0 : ℚ)), (0, 0)] 100 =
      [{ p1 := (0, 0), p2 := (0, 0), alpha := 1 }] := by
  rw [connect_dot_eq]
  have h2 : idxUpairs ([((0 : ℚ), (0 : ℚ)), ((0 : ℚ), (0 : ℚ))].length) = [(0, 1)] := rfl
  rw [h2]
  simp only [List.filterMap_cons, List.filterMap_nil, List.getD_cons_zero,
    List.getD_cons_succ]
  rw [dist_00, if_pos (by norm_num : (0 : ℝ) < ((100 : ℚ) : ℝ))]
  norm_num

/-- Two dots at distance 50 with connect force 100 yield one line of opacity
1/2. -/
theorem connect_ex2 :
    connect_dot [((0 : ℚ), (0 : ℚ)), (50, 0)] 100 =
      [{ p1 := (0, 0), p2 := (50, 0), alpha := 1 / 2 }] := by
  rw [connect_dot_eq]
  have h2 : idxUpairs ([((0 : ℚ), (0 : ℚ)), ((50 : ℚ), (0 : ℚ))].length) = [(0, 1)] := rfl
  rw [h2]
  simp only [List.filterMap_cons, List.filterMap_nil, List.getD_cons_zero,
    List.getD_cons_succ]
  rw [dist_50, if_pos (by norm_num : (50 : ℝ) < ((100 : ℚ) : ℝ))]
  norm_num

/-- Two dots at distance exactly 100 with connect force 100 yield no line. -/
theorem connect_ex3 :
    connect_dot [((0 : ℚ), (0 : ℚ)), (100, 0)] 100 = [] := by
  rw [connect_dot_eq]
  have h2 : idxUpairs ([((0 : ℚ), (0 : ℚ)), ((100 : ℚ), (0 : ℚ))].length) = [(0, 1)] := rfl
  rw [h2]
  simp only [List.filterMap_cons, List.filterMap_nil, List.getD_cons_zero,
    List.getD_cons_succ]
  rw [dist_100, if_neg (by norm_num : ¬((100 : ℝ) < ((100 : ℚ) : ℝ)))]

/-- C1: `connect_dot` evaluates every unordered pair of distinct dots exactly
once (the enumerated index pairs are duplicate-free, contain no self-pair,
and cover exactly the pairs i < j), draws a line for a pair precisely when
its Euclidean distance is below `connect_force`, with alpha equal to
`1 - d / connect_force`; a non-positive (in particular negative) connect
force draws nothing, and the d = 0, d = 50 and d = 100 examples at connect
force 100 give opacity 1, opacity 1/2 and no line. -/
theorem connect_dot_spec (dots : List (ℚ × ℚ)) (cf : ℚ) :
    (connect_dot dots cf =
      (idxUpairs dots.length).filterMap fun ij =>
        if distance_between_points (dots.getD ij.1 (0, 0)) (dots.getD ij.2 (0, 0)) <
            (cf : ℝ) then
          some { p1 := dots.getD ij.1 (0, 0), p2 := dots.getD ij.2 (0, 0),
                 alpha := 1 -
                   distance_between_points (dots.getD ij.1 (0, 0))
                     (dots.getD ij.2 (0, 0)) / (cf : ℝ) }
        else none) ∧
    (idxUpairs dots.length).Nodup ∧
    (∀ i j : ℕ, (i, j) ∈ idxUpairs dots.length ↔ i < j ∧ j < dots.length) ∧
    (cf ≤ 0 → connect_dot dots cf = []) ∧
    connect_dot [((0 : ℚ), (0 : ℚ)), (0, 0)] 100 =
      [{ p1 := (0, 0), p2 := (0, 0), alpha := 1 }] ∧
    connect_dot [((0 : ℚ), (0 : ℚ)), (50, 0)] 100 =
      [{ p1 := (0, 0), p2 := (50, 0), alpha := 1 / 2 }] ∧
    connect_dot [((0 : ℚ), (0 : ℚ)), (100, 0)] 100 = [] :=
  ⟨connect_dot_eq dots cf, idxUpairs_nodup dots.length,
   mem_idxUpairs dots.length, connect_dot_nonpos dots cf,
   connect_ex1, connect_ex2, connect_ex3⟩

/-- C1 witness: at a concrete registry a negative connect force draws
nothing. -/
theorem connect_dot_spec_witness :
    connect_dot [((0 : ℚ), (0 : ℚ)), (3, 4)] (-5) = [] :=
  (connect_dot_spec [((0 : ℚ), (0 : ℚ)), (3, 4)] (-5)).2.2.2.1 (by norm_num)

/-- C3 witness: the amended format theorem instantiated at concrete values. -/
theorem update_info_text_format_witness :
    update_info_text 2 "10" "7" =
      "Dot (Click/Space): " ++ toString 2 ++ " | Connect Force (I/K) : " ++ "10" ++
        " | Speed (U/J): " ++ "7" ∧
    update_info_text 2 "10" "7" ≠ spec_info_text 2 "10" "7" :=
  update_info_text_format 2 "10" "7"
